import Mathlib

/-!
Verification of the `pilock` GPIO hardware-abstraction layer.

This file is a shallow embedding of the Rust sources of the repository:

* `gpio/src/raw.rs` — the raw GPIO driver (pin/bus allocator over an atomic
  bitset, register encoding for function-select / set-clear / bias fields);
* `gpio/src/clock/raw.rs` — the clock-manager driver (password-gated
  control/divisor register writes, DIVI/DIVF conversions);
* `gpio/src/pwm/raw.rs` — the PWM driver (per-channel byte sub-field of the
  control register);
* `gpio/src/debounce/timed.rs` — the timed debouncer;
* `gpio/src/rotenc/mod.rs` — the quadrature rotary-encoder decoder.

Modelling conventions:

* The memory-mapped register window is a pure register file
  `regs : Nat → Nat` indexed by 32-bit word offset; a volatile read is an
  application of the function, a volatile write is a pointwise update.
  Stored values are 32-bit words.
* `&self` methods that mutate through the mapping or the atomic bitset are
  state-passing functions `GpioState → … → Except GpioError α × GpioState`;
  a Rust early `return Err(..)` yields `(.error e, s)` with `s` the state at
  that point, so partial mutation before a failure is observable.
* Machine integers are `Nat` (all the arithmetic in scope is on `u32`/`usize`
  values that stay far below any wrap point, except where an explicit
  `% 4294967296` appears to model `u32::wrapping_add`).  The `u32` bitwise
  complement `!m` is modelled by `not32 m = 0xFFFFFFFF ^^^ m`.
* `f32` divisor arithmetic is modelled over `ℚ`: every value the divisor
  code computes on the inputs considered is an integer multiple of `2⁻¹⁰`
  of magnitude below `2²³`, hence exactly representable in `f32`, so the
  rational semantics coincides with the `f32` one.
* A Rust `todo!()` body is modelled by an explicit `panics` outcome,
  distinguished from a normal return.
-/

/-- Errors of the GPIO layer, from `GpioError` in `gpio/src/lib.rs`. -/
inductive GpioError where
  | AlreadyInUse : GpioError
  | InvalidArgument : GpioError
  | NotSupported : GpioError
  | Io : Nat → GpioError
  | Other : String → GpioError
deriving DecidableEq, Repr

/-- Active-level policy, from `GpioActiveLevel` in `gpio/src/lib.rs`. -/
inductive GpioActiveLevel where
  | High : GpioActiveLevel
  | Low : GpioActiveLevel
deriving DecidableEq, Repr

/-- Bias policy, from `GpioBias` in `gpio/src/lib.rs`. -/
inductive GpioBias where
  | None : GpioBias
  | PullUp : GpioBias
  | PullDown : GpioBias
deriving DecidableEq, Repr

/-- Drive-mode policy, from `GpioDriveMode` in `gpio/src/lib.rs`. -/
inductive GpioDriveMode where
  | PushPull : GpioDriveMode
  | OpenDrain : GpioDriveMode
  | OpenSource : GpioDriveMode
deriving DecidableEq, Repr

/-- The 32-bit complement `!m` of a mask `m < 2^32`, as computed on `u32`. -/
def not32 (m : Nat) : Nat := 0xFFFFFFFF ^^^ m

/-- Pointwise update of a word-indexed register file. -/
def updateAt (f : Nat → Nat) (k v : Nat) : Nat → Nat :=
  fun j => if j = k then v else f j

/-- Pointwise update of the allocation bitset
(`BitVec::set_aliased` on one index in `gpio/src/raw.rs`). -/
def updateBit (f : Nat → Bool) (k : Nat) (v : Bool) : Nat → Bool :=
  fun j => if j = k then v else f j

/-- State of a `RawGpioDriver` (`gpio/src/raw.rs`): the mapped GPIO register
block (word-indexed) and the `used_pins` allocation bitset. -/
structure GpioState where
  regs : Nat → Nat
  used_pins : Nat → Bool

/-- `RawGpioDriver::PIN_COUNT` in `gpio/src/raw.rs`. -/
def RawGpioDriver.PIN_COUNT : Nat := 58

/-- `RawGpioDriver::raw_get_pin_function` (read-only, `gpio/src/raw.rs`). -/
def RawGpioDriver.raw_get_pin_function (s : GpioState) (pin_index : Nat) :
    Except GpioError Nat :=
  if RawGpioDriver.PIN_COUNT ≤ pin_index then .error .InvalidArgument
  else
    let shift := (pin_index % 10) * 3
    .ok ((s.regs (pin_index / 10) >>> shift) &&& 0b111)

/-- `RawGpioDriver::raw_set_pin_function` (`gpio/src/raw.rs`). -/
def RawGpioDriver.raw_set_pin_function (s : GpioState)
    (pin_index function : Nat) : Except GpioError Unit × GpioState :=
  if 0b111 < function then (.error .InvalidArgument, s)
  else if RawGpioDriver.PIN_COUNT ≤ pin_index then (.error .InvalidArgument, s)
  else
    let word := pin_index / 10
    let shift := (pin_index % 10) * 3
    let register_value := s.regs word
    let register_value := register_value &&& not32 (0b111 <<< shift)
    let register_value := register_value ||| (function <<< shift)
    (.ok (), { s with regs := updateAt s.regs word register_value })

/-- `RawGpioDriver::raw_set_pin_output` (`gpio/src/raw.rs`); writes a one-hot
word to the GPSET/GPCLR register (no read-modify-write). -/
def RawGpioDriver.raw_set_pin_output (s : GpioState)
    (pin_index : Nat) (high : Bool) : Except GpioError Unit × GpioState :=
  if RawGpioDriver.PIN_COUNT ≤ pin_index then (.error .InvalidArgument, s)
  else
    let word := (if high then 0x1c / 4 else 0x28 / 4) + pin_index / 32
    let shift := pin_index % 32
    (.ok (), { s with regs := updateAt s.regs word (1 <<< shift) })

/-- `RawGpioDriver::raw_set_bias` (`gpio/src/raw.rs`). -/
def RawGpioDriver.raw_set_bias (s : GpioState)
    (pin_index : Nat) (bias : GpioBias) : Except GpioError Unit × GpioState :=
  if RawGpioDriver.PIN_COUNT ≤ pin_index then (.error .InvalidArgument, s)
  else
    let bias_value : Nat :=
      match bias with
      | .None => 0b00
      | .PullUp => 0b01
      | .PullDown => 0b10
    let word := 0xE4 / 4 + pin_index / 16
    let shift := (pin_index % 16) * 2
    let register_value := s.regs word
    let register_value := register_value &&& not32 (0b11 <<< shift)
    let register_value := register_value ||| (bias_value <<< shift)
    (.ok (), { s with regs := updateAt s.regs word register_value })

/-- `RawGpioDriver::raw_get_bias` (read-only, `gpio/src/raw.rs`). -/
def RawGpioDriver.raw_get_bias (s : GpioState) (pin_index : Nat) :
    Except GpioError GpioBias :=
  if RawGpioDriver.PIN_COUNT ≤ pin_index then .error .InvalidArgument
  else
    let shift := (pin_index % 16) * 2
    let bias_value := (s.regs (0xE4 / 4 + pin_index / 16) >>> shift) &&& 0b11
    if bias_value = 0b00 then .ok .None
    else if bias_value = 0b01 then .ok .PullUp
    else if bias_value = 0b10 then .ok .PullDown
    else .error .NotSupported

/-- `RawGpioDriver::raw_reset` (`gpio/src/raw.rs`): function to input, bias
to none, output level low, each early-returning on error. -/
def RawGpioDriver.raw_reset (s : GpioState) (pin_index : Nat) :
    Except GpioError Unit × GpioState :=
  match RawGpioDriver.raw_set_pin_function s pin_index 0 with
  | (.error e, s1) => (.error e, s1)
  | (.ok _, s1) =>
    match RawGpioDriver.raw_set_bias s1 pin_index .None with
    | (.error e, s2) => (.error e, s2)
    | (.ok _, s2) => RawGpioDriver.raw_set_pin_output s2 pin_index false

/-- The data of a `RawGpioPin` handle (`gpio/src/raw.rs`), minus the driver
back-reference (which is the explicit state in this embedding). -/
structure RawGpioPin where
  pin_index : Nat
  active_level : GpioActiveLevel
  drive_mode : GpioDriveMode
deriving DecidableEq, Repr

/-- The data of a `RawGpioBus` handle (`gpio/src/raw.rs`), minus the driver
back-reference.  The const-generic `[usize; N]` index array is a list. -/
structure RawGpioBus where
  pin_indices : List Nat
  active_level : GpioActiveLevel
  drive_mode : GpioDriveMode
deriving DecidableEq, Repr

/-- `RawGpioDriver::get_pin` (`gpio/src/raw.rs`): range check, in-use check,
set the allocation bit, reset the pin, return the handle. -/
def RawGpioDriver.get_pin (s : GpioState) (index : Nat) :
    Except GpioError RawGpioPin × GpioState :=
  if RawGpioDriver.PIN_COUNT ≤ index then (.error .InvalidArgument, s)
  else if s.used_pins index then (.error .AlreadyInUse, s)
  else
    let s1 : GpioState := { s with used_pins := updateBit s.used_pins index true }
    match RawGpioDriver.raw_reset s1 index with
    | (.error e, s2) => (.error e, s2)
    | (.ok _, s2) =>
      (.ok { pin_index := index, active_level := .High, drive_mode := .PushPull }, s2)

/-- The allocation loop of `RawGpioDriver::get_pin_bus` (`gpio/src/raw.rs`):
for each index, set the allocation bit then reset the pin, early-returning
on a reset error. -/
def RawGpioDriver.allocLoop : GpioState → List Nat →
    Except GpioError Unit × GpioState
  | s, [] => (.ok (), s)
  | s, index :: rest =>
    let s1 : GpioState := { s with used_pins := updateBit s.used_pins index true }
    match RawGpioDriver.raw_reset s1 index with
    | (.error e, s2) => (.error e, s2)
    | (.ok _, s2) => RawGpioDriver.allocLoop s2 rest

/-- `RawGpioDriver::get_pin_bus` (`gpio/src/raw.rs`): first every index is
range-checked, then every index is tested for use, and only then are the
allocation bits set. -/
def RawGpioDriver.get_pin_bus (s : GpioState) (indices : List Nat) :
    Except GpioError RawGpioBus × GpioState :=
  if indices.any (fun index => RawGpioDriver.PIN_COUNT ≤ index) then
    (.error .InvalidArgument, s)
  else if indices.any (fun index => s.used_pins index) then
    (.error .AlreadyInUse, s)
  else
    match RawGpioDriver.allocLoop s indices with
    | (.error e, s2) => (.error e, s2)
    | (.ok _, s2) =>
      (.ok { pin_indices := indices, active_level := .High, drive_mode := .PushPull }, s2)

/-- `impl Drop for RawGpioPin` (`gpio/src/raw.rs`, lines 312–316): the body
is exactly `self.driver.used_pins.set_aliased(self.pin_index, false)`. -/
def RawGpioPin.drop (s : GpioState) (pin_index : Nat) : GpioState :=
  { s with used_pins := updateBit s.used_pins pin_index false }

lemma raw_set_pin_function_ok (s : GpioState) (i fn : Nat)
    (h1 : fn ≤ 7) (h2 : i < 58) :
    ∃ r, RawGpioDriver.raw_set_pin_function s i fn =
      (.ok (), { s with regs := r }) := by
  unfold RawGpioDriver.raw_set_pin_function
  rw [if_neg (by omega), if_neg (by simp [RawGpioDriver.PIN_COUNT]; omega)]
  exact ⟨_, rfl⟩

lemma raw_set_bias_ok (s : GpioState) (i : Nat) (b : GpioBias) (h : i < 58) :
    ∃ r, RawGpioDriver.raw_set_bias s i b = (.ok (), { s with regs := r }) := by
  unfold RawGpioDriver.raw_set_bias
  rw [if_neg (by simp [RawGpioDriver.PIN_COUNT]; omega)]
  exact ⟨_, rfl⟩

lemma raw_set_pin_output_ok (s : GpioState) (i : Nat) (hi : Bool) (h : i < 58) :
    ∃ r, RawGpioDriver.raw_set_pin_output s i hi =
      (.ok (), { s with regs := r }) := by
  unfold RawGpioDriver.raw_set_pin_output
  rw [if_neg (by simp [RawGpioDriver.PIN_COUNT]; omega)]
  exact ⟨_, rfl⟩

lemma raw_reset_ok (s : GpioState) (i : Nat) (h : i < 58) :
    ∃ s2, RawGpioDriver.raw_reset s i = (.ok (), s2) ∧
      s2.used_pins = s.used_pins := by
  unfold RawGpioDriver.raw_reset
  obtain ⟨r1, e1⟩ := raw_set_pin_function_ok s i 0 (by omega) h
  rw [e1]
  dsimp only
  obtain ⟨r2, e2⟩ := raw_set_bias_ok { s with regs := r1 } i .None h
  rw [e2]
  dsimp only
  obtain ⟨r3, e3⟩ := raw_set_pin_output_ok { s with regs := r2 } i false h
  rw [e3]
  exact ⟨_, rfl, rfl⟩

/-- Claim C1: if any index passed to `RawGpioDriver::get_pin_bus` is out of
range (≥ 58) or already leased, the whole call fails (with
`InvalidArgument` or `AlreadyInUse` respectively), the driver state is
unchanged, and every requested index that was free before the call is
still free after it. -/
theorem get_pin_bus_failure_atomic (s : GpioState) (indices : List Nat)
    (h : (∃ i ∈ indices, 58 ≤ i) ∨ (∃ i ∈ indices, s.used_pins i = true)) :
    ((∃ i ∈ indices, 58 ≤ i) →
      RawGpioDriver.get_pin_bus s indices = (.error .InvalidArgument, s)) ∧
    ((∀ i ∈ indices, i < 58) → (∃ i ∈ indices, s.used_pins i = true) →
      RawGpioDriver.get_pin_bus s indices = (.error .AlreadyInUse, s)) ∧
    (RawGpioDriver.get_pin_bus s indices).2 = s ∧
    (∀ i, s.used_pins i = false →
      ((RawGpioDriver.get_pin_bus s indices).2).used_pins i = false) := by
  by_cases hA : ∃ i ∈ indices, 58 ≤ i
  · have hany : indices.any (fun index => RawGpioDriver.PIN_COUNT ≤ index) = true := by
      simp only [List.any_eq_true, decide_eq_true_eq, RawGpioDriver.PIN_COUNT]
      exact hA
    have he : RawGpioDriver.get_pin_bus s indices = (.error .InvalidArgument, s) := by
      unfold RawGpioDriver.get_pin_bus
      rw [if_pos hany]
    refine ⟨fun _ => he, fun hlt _ => ?_, by rw [he], fun i hi => by rw [he]; exact hi⟩
    obtain ⟨i, hmem, hge⟩ := hA
    exact absurd (hlt i hmem) (by omega)
  · obtain ⟨i, hmem, hused⟩ := h.resolve_left hA
    have hany1 : indices.any (fun index => RawGpioDriver.PIN_COUNT ≤ index) = false := by
      simp only [List.any_eq_false, decide_eq_true_eq, RawGpioDriver.PIN_COUNT]
      intro j hj
      exact fun hge => hA ⟨j, hj, hge⟩
    have hany2 : indices.any (fun index => s.used_pins index) = true := by
      simp only [List.any_eq_true]
      exact ⟨i, hmem, hused⟩
    have he : RawGpioDriver.get_pin_bus s indices = (.error .AlreadyInUse, s) := by
      unfold RawGpioDriver.get_pin_bus
      rw [if_neg (by simp [hany1]), if_pos hany2]
    exact ⟨fun hge => absurd hge hA, fun _ _ => he, by rw [he],
      fun j hj => by rw [he]; exact hj⟩

/-- Claim C1 witness: a concrete out-of-range request and a concrete
already-leased request both fail without touching the state. -/
theorem get_pin_bus_failure_atomic_witness :
    RawGpioDriver.get_pin_bus ⟨fun _ => 0, fun _ => false⟩ [60, 3] =
      (.error .InvalidArgument, ⟨fun _ => 0, fun _ => false⟩) ∧
    RawGpioDriver.get_pin_bus ⟨fun _ => 0, fun j => j = 3⟩ [3] =
      (.error .AlreadyInUse, ⟨fun _ => 0, fun j => j = 3⟩) := by
  constructor
  · exact (get_pin_bus_failure_atomic ⟨fun _ => 0, fun _ => false⟩ [60, 3]
      (Or.inl ⟨60, by simp, by omega⟩)).1 ⟨60, by simp, by omega⟩
  · exact (get_pin_bus_failure_atomic ⟨fun _ => 0, fun j => j = 3⟩ [3]
      (Or.inr ⟨3, by simp, by simp⟩)).2.1 (by simp) ⟨3, by simp, by simp⟩

/-- Claim C2: for every pin index `i < 58` starting from a state where `i`
is free, a first `get_pin(i)` succeeds and sets the in-use bit, a second
`get_pin(i)` while the first handle is live returns `AlreadyInUse` (leaving
the state untouched), and after the first handle is dropped (clearing the
bit) a third `get_pin(i)` succeeds. -/
theorem get_pin_twice_then_release (s : GpioState) (i : Nat)
    (h1 : i < 58) (h2 : s.used_pins i = false) :
    ∃ pin1 s1 pin3 s3,
      RawGpioDriver.get_pin s i = (.ok pin1, s1) ∧
      s1.used_pins i = true ∧
      RawGpioDriver.get_pin s1 i = (.error .AlreadyInUse, s1) ∧
      (RawGpioPin.drop s1 i).used_pins i = false ∧
      RawGpioDriver.get_pin (RawGpioPin.drop s1 i) i = (.ok pin3, s3) := by
  have hlt : ¬ RawGpioDriver.PIN_COUNT ≤ i := by
    simp [RawGpioDriver.PIN_COUNT]; omega
  -- first call
  obtain ⟨s1, e1, hu1⟩ :=
    raw_reset_ok ⟨s.regs, updateBit s.used_pins i true⟩ i h1
  have c1 : RawGpioDriver.get_pin s i =
      (.ok { pin_index := i, active_level := .High, drive_mode := .PushPull }, s1) := by
    unfold RawGpioDriver.get_pin
    rw [if_neg hlt, if_neg (by rw [h2]; simp)]
    dsimp only
    rw [e1]
  have hu1i : s1.used_pins i = true := by
    rw [hu1]; simp [updateBit]
  -- second call fails
  have c2 : RawGpioDriver.get_pin s1 i = (.error .AlreadyInUse, s1) := by
    unfold RawGpioDriver.get_pin
    rw [if_neg hlt, if_pos hu1i]
  -- drop clears the bit
  have hdrop : (RawGpioPin.drop s1 i).used_pins i = false := by
    simp [RawGpioPin.drop, updateBit]
  -- third call succeeds
  obtain ⟨s3, e3, _⟩ := raw_reset_ok
    ⟨(RawGpioPin.drop s1 i).regs,
      updateBit (RawGpioPin.drop s1 i).used_pins i true⟩ i h1
  have c3 : RawGpioDriver.get_pin (RawGpioPin.drop s1 i) i =
      (.ok { pin_index := i, active_level := .High, drive_mode := .PushPull }, s3) := by
    unfold RawGpioDriver.get_pin
    rw [if_neg hlt, if_neg (by rw [hdrop]; simp)]
    dsimp only
    rw [e3]
  exact ⟨_, s1, _, s3, c1, hu1i, c2, hdrop, c3⟩

/-- Claim C2 witness: the lease/conflict/release/re-lease cycle on pin 5 of
the all-free initial driver state. -/
theorem get_pin_twice_then_release_witness :
    5 < 58 ∧ (GpioState.mk (fun _ => 0) (fun _ => false)).used_pins 5 = false ∧
    ∃ pin1 s1 pin3 s3,
      RawGpioDriver.get_pin ⟨fun _ => 0, fun _ => false⟩ 5 = (.ok pin1, s1) ∧
      s1.used_pins 5 = true ∧
      RawGpioDriver.get_pin s1 5 = (.error .AlreadyInUse, s1) ∧
      (RawGpioPin.drop s1 5).used_pins 5 = false ∧
      RawGpioDriver.get_pin (RawGpioPin.drop s1 5) 5 = (.ok pin3, s3) :=
  ⟨by omega, rfl,
    get_pin_twice_then_release ⟨fun _ => 0, fun _ => false⟩ 5 (by omega) rfl⟩

lemma allocLoop_ok (indices : List Nat) :
    ∀ s : GpioState, (∀ j ∈ indices, j < 58) →
      ∃ s2, RawGpioDriver.allocLoop s indices = (.ok (), s2) := by
  induction indices with
  | nil => exact fun s _ => ⟨s, rfl⟩
  | cons i rest ih =>
    intro s hall
    obtain ⟨s2, e2, _⟩ := raw_reset_ok
      ⟨s.regs, updateBit s.used_pins i true⟩ i (hall i (by simp))
    obtain ⟨s3, e3⟩ := ih s2 (fun j hj => hall j (by simp [hj]))
    refine ⟨s3, ?_⟩
    unfold RawGpioDriver.allocLoop
    dsimp only
    rw [e2]
    exact e3

/-- Claim C10: if the array passed to `RawGpioDriver::get_pin_bus` contains
the same in-range, currently-free index more than once, the call succeeds
(all in-use bits are tested before any bit is set, so the duplicate is not
rejected) and the returned bus handle lists that pin multiple times. -/
theorem get_pin_bus_duplicate_index (s : GpioState) (indices : List Nat)
    (i : Nat) (hdup : 1 < indices.count i)
    (hrange : ∀ j ∈ indices, j < 58)
    (hfree : ∀ j ∈ indices, s.used_pins j = false) :
    ∃ s2, RawGpioDriver.get_pin_bus s indices =
        (.ok { pin_indices := indices, active_level := .High,
               drive_mode := .PushPull }, s2) ∧
      1 < (RawGpioBus.mk indices .High .PushPull).pin_indices.count i := by
  have hany1 : indices.any (fun index => RawGpioDriver.PIN_COUNT ≤ index) = false := by
    simp only [List.any_eq_false, decide_eq_true_eq, RawGpioDriver.PIN_COUNT]
    intro j hj
    have := hrange j hj
    omega
  have hany2 : indices.any (fun index => s.used_pins index) = false := by
    simp only [List.any_eq_false]
    intro j hj
    simp [hfree j hj]
  obtain ⟨s2, e2⟩ := allocLoop_ok indices s hrange
  refine ⟨s2, ?_, hdup⟩
  unfold RawGpioDriver.get_pin_bus
  rw [if_neg (by simp [hany1]), if_neg (by simp [hany2]), e2]

/-- Claim C10 witness: requesting the bus `[3, 3]` on the all-free initial
state succeeds and the handle lists pin 3 twice. -/
theorem get_pin_bus_duplicate_index_witness :
    1 < ([3, 3].count 3) ∧
    ∃ s2, RawGpioDriver.get_pin_bus ⟨fun _ => 0, fun _ => false⟩ [3, 3] =
        (.ok { pin_indices := [3, 3], active_level := .High,
               drive_mode := .PushPull }, s2) ∧
      1 < (RawGpioBus.mk [3, 3] .High .PushPull).pin_indices.count 3 :=
  ⟨by decide,
    get_pin_bus_duplicate_index ⟨fun _ => 0, fun _ => false⟩ [3, 3] 3
      (by decide) (by decide) (fun j _ => rfl)⟩

/-- A driver state whose function-select register reports function 1
(output) for pin 0 and whose allocation bit for pin 0 is set: the state of
a leased pin that has been switched to output mode. -/
def gpioOutputState : GpioState :=
  { regs := fun _ => 1, used_pins := fun _ => true }

/-- Claim C6 counterexample: dropping a `RawGpioPin` does not reset the
physical pin.  From a state where pin 0 is leased and configured as an
output (function 1), the drop handler clears the allocation bit but the
function-select field still reads 1, not the safe-default input (0) the
claim requires. -/
theorem rawGpioPin_drop_no_reset_counterexample :
    (RawGpioPin.drop gpioOutputState 0).used_pins 0 = false ∧
    RawGpioDriver.raw_get_pin_function (RawGpioPin.drop gpioOutputState 0) 0 =
      .ok 1 ∧
    RawGpioDriver.raw_get_pin_function (RawGpioPin.drop gpioOutputState 0) 0 ≠
      .ok 0 := by
  refine ⟨rfl, rfl, ?_⟩
  intro h
  simp [RawGpioDriver.raw_get_pin_function, RawGpioDriver.PIN_COUNT,
    gpioOutputState, RawGpioPin.drop] at h

/-- Claim C6 (amended): releasing a single-pin handle (`Drop` for
`RawGpioPin`) only clears the pin's allocation bit; it performs no hardware
register access, so every register — function select, bias, output level —
is left exactly as it was.  (The safe-default reset runs in `get_pin` at
acquisition instead.) -/
theorem rawGpioPin_drop_clears_bit_only (s : GpioState) (i : Nat) :
    (RawGpioPin.drop s i).regs = s.regs ∧
    (RawGpioPin.drop s i).used_pins i = false ∧
    (∀ j, j ≠ i → (RawGpioPin.drop s i).used_pins j = s.used_pins j) := by
  refine ⟨rfl, by simp [RawGpioPin.drop, updateBit], fun j hj => ?_⟩
  simp [RawGpioPin.drop, updateBit, hj]

/-- Claim C6 witness: dropping pin 0 on the concrete leased-output state
keeps the register file intact and leaves pin 1's allocation bit alone. -/
theorem rawGpioPin_drop_clears_bit_only_witness :
    (RawGpioPin.drop gpioOutputState 0).regs = gpioOutputState.regs ∧
    (RawGpioPin.drop gpioOutputState 0).used_pins 0 = false ∧
    (RawGpioPin.drop gpioOutputState 0).used_pins 1 = gpioOutputState.used_pins 1 :=
  ⟨(rawGpioPin_drop_clears_bit_only gpioOutputState 0).1,
    (rawGpioPin_drop_clears_bit_only gpioOutputState 0).2.1,
    (rawGpioPin_drop_clears_bit_only gpioOutputState 0).2.2 1 (by omega)⟩

/-- State of a `TimedDebounce` (`gpio/src/debounce/timed.rs`): the stored
state bit, the optional transition timestamp, and the hold duration.
Instants and durations are in milliseconds. -/
structure TimedDebounce where
  state : Bool
  changed_since : Option Nat
  debounce_time : Nat
deriving DecidableEq, Repr

/-- `impl GpioInput for TimedDebounce` / `read` (`gpio/src/debounce/timed.rs`,
lines 38–61).  `now` is the current instant (so `instant.elapsed()` is
`now - instant`) and `new_state` is the sample the wrapped input returns.
Returns the reported value and the updated debouncer. -/
def TimedDebounce.read (d : TimedDebounce) (now : Nat) (new_state : Bool) :
    Bool × TimedDebounce :=
  let previous_state := d.state
  match d.changed_since with
  | some instant =>
    if now - instant < d.debounce_time then
      if previous_state = new_state then
        (previous_state, { d with changed_since := none })
      else
        (previous_state, d)
    else
      (new_state, { d with changed_since := none, state := new_state })
  | none =>
    if previous_state ≠ new_state then
      (previous_state, { d with changed_since := some now, state := new_state })
    else
      (previous_state, d)

/-- Runs a `TimedDebounce` over a list of `(instant, sample)` pairs,
collecting the reported values. -/
def TimedDebounce.run (d : TimedDebounce) :
    List (Nat × Bool) → List Bool
  | [] => []
  | (now, sample) :: rest =>
    let (value, d1) := TimedDebounce.read d now sample
    value :: TimedDebounce.run d1 rest

/-- The spec's debounce scenario: stable value `false`, 50 ms hold, samples
`true` at t=0 ms, `true` at t=10 ms, `false` at t=20 ms, `true` at t=60 ms. -/
def debounceScenario : List Bool :=
  TimedDebounce.run
    { state := false, changed_since := none, debounce_time := 50 }
    [(0, true), (10, true), (20, false), (60, true)]

/-- Claim C3 counterexample: the scenario does not return
`[false, false, false, true]`.  The code stores the new sample into `state`
as soon as a transition starts, so the second read (still inside the hold
window) already reports `true`; the actual output is
`[false, true, true, false]`. -/
theorem timedDebounce_scenario_counterexample :
    debounceScenario ≠ [false, false, false, true] ∧
    debounceScenario = [false, true, true, false] := by
  constructor
  · decide
  · decide

/-- Claim C3 (amended): for a `TimedDebounce` with hold duration 50 ms whose
stable value is `false`, sampling `[true at 0 ms, true at 10 ms, false at
20 ms, true at 60 ms]` returns `[false, true, true, false]`: the read that
first observes a change reports the old value but immediately stores the
new one and opens the hold window; a read within the window that observes
the stored value again reports that (new) value and cancels the window; a
read within a window whose sample differs from the stored value reports the
stored value. -/
theorem timedDebounce_scenario : debounceScenario = [false, true, true, false] := by
  decide

/-- `RotEncRotation` (`gpio/src/rotenc/mod.rs`). -/
inductive RotEncRotation where
  | Clockwise : RotEncRotation
  | CounterClockwise : RotEncRotation
deriving DecidableEq, Repr

/-- State of a `RotEnc` (`gpio/src/rotenc/mod.rs`), minus the two pin
references (the raw two-bit sample is fed to `read` directly).  `ticks` and
`reading_start` model the `NonZero<u32>` poll counter and run-start index. -/
structure RotEnc where
  state : Bool × Bool
  ticks_per_rotation : Nat
  tick_count : Int
  reading_limit : Nat
  reading_start : Option Nat
  ticks : Nat
deriving DecidableEq, Repr

/-- `RotEnc::STATES_CLOCKWISE` (`gpio/src/rotenc/mod.rs`). -/
def RotEnc.STATES_CLOCKWISE : List (Bool × Bool) :=
  [(false, false), (true, false), (true, true), (false, true)]

/-- `RotEnc::read` (`gpio/src/rotenc/mod.rs`, lines 67–116), with
`current_state` the sample `read_raw` returns.  The poll counter wraps as a
`u32` (`wrapping_add`), restarting at 1 and aborting the run on overflow. -/
def RotEnc.read (r : RotEnc) (current_state : Bool × Bool) :
    Option RotEncRotation × RotEnc :=
  let tick0 := (r.ticks + 1) % 4294967296
  let tick := if tick0 = 0 then 1 else tick0
  let rs0 := if tick0 = 0 then none else r.reading_start
  let previous_state := r.state
  if current_state = previous_state then
    (none, { r with ticks := tick, reading_start := rs0, state := current_state })
  else
    let previous_index :=
      RotEnc.STATES_CLOCKWISE.findIdx? (fun s => s = previous_state)
    let current_index :=
      RotEnc.STATES_CLOCKWISE.findIdx? (fun s => s = current_state)
    let step : Int × Option Nat :=
      match previous_index, current_index with
      | some prev_idx, some curr_idx =>
        if (curr_idx + 1) % RotEnc.STATES_CLOCKWISE.length = prev_idx then
          (r.tick_count - 1, some (rs0.getD tick))
        else if (prev_idx + 1) % RotEnc.STATES_CLOCKWISE.length = curr_idx then
          (r.tick_count + 1, some (rs0.getD tick))
        else
          (r.tick_count, rs0)
      | _, _ => (r.tick_count, rs0)
    let timed : Int × Option Nat :=
      match step.2 with
      | some start =>
        if start + r.reading_limit ≤ tick then (0, none) else step
      | none => step
    if (r.ticks_per_rotation : Int) ≤ timed.1 then
      (some .Clockwise,
        { r with state := current_state, ticks := tick,
                 tick_count := 0, reading_start := none })
    else if timed.1 ≤ -(r.ticks_per_rotation : Int) then
      (some .CounterClockwise,
        { r with state := current_state, ticks := tick,
                 tick_count := 0, reading_start := none })
    else
      (none,
        { r with state := current_state, ticks := tick,
                 tick_count := timed.1, reading_start := timed.2 })

/-- Runs a `RotEnc` over a list of raw samples, collecting the rotation
events each `read` returns. -/
def RotEnc.run (r : RotEnc) : List (Bool × Bool) → List (Option RotEncRotation)
  | [] => []
  | sample :: rest =>
    let (event, r1) := RotEnc.read r sample
    event :: RotEnc.run r1 rest

/-- The state `RotEnc::new` builds when the initial raw sample is (0,0):
pulses-per-detent 2, noise timeout 200 polls, poll counter 1. -/
def rotEncInitial : RotEnc :=
  { state := (false, false), ticks_per_rotation := 2, tick_count := 0,
    reading_limit := 200, reading_start := none, ticks := 1 }

/-- The spec's rotary scenario: the clockwise sequence
(0,0), (1,0), (1,1), (0,1), (0,0) fed as consecutive reads. -/
def rotEncScenario : List (Option RotEncRotation) :=
  RotEnc.run rotEncInitial
    [(false, false), (true, false), (true, true), (false, true), (false, false)]

/-- Claim C4 counterexample: the scenario does not emit exactly one
`Clockwise` event — it emits two (with pulses-per-detent 2, the four
clockwise transitions of a full quadrature cycle complete the threshold
twice, on the (1,0)→(1,1) and the (0,1)→(0,0) transitions). -/
theorem rotEnc_scenario_counterexample :
    rotEncScenario.count (some RotEncRotation.Clockwise) = 2 ∧
    rotEncScenario.count (some RotEncRotation.Clockwise) ≠ 1 := by
  constructor
  · decide
  · decide

/-- Claim C4 (amended): feeding a `RotEnc` (pulses-per-detent 2, initial
state (0,0)) the clockwise sequence (0,0)→(1,0)→(1,1)→(0,1)→(0,0) as
consecutive reads emits exactly two `Clockwise` events — one on each
transition that completes two accumulated clockwise steps, i.e. on
(1,0)→(1,1) and on (0,1)→(0,0) — and returns no rotation on every other
read. -/
theorem rotEnc_scenario :
    rotEncScenario =
      [none, none, some RotEncRotation.Clockwise, none,
        some RotEncRotation.Clockwise] := by
  decide

/-- Truncation toward zero, as `f32::trunc` behaves (every value the
divisor code manipulates is exactly representable, so `ℚ` semantics
coincides with `f32` semantics). -/
def ratTrunc (q : ℚ) : ℤ := if q < 0 then ⌈q⌉ else ⌊q⌋

/-- `f32::fract`: `self - self.trunc()`. -/
def ratFract (q : ℚ) : ℚ := q - (ratTrunc q : ℚ)

/-- The Rust `as u16` cast from `f32`: truncate toward zero and saturate
into `[0, 65535]`. -/
def rustCastToU16 (q : ℚ) : Nat := if q < 0 then 0 else min 65535 (ratTrunc q).toNat

/-- `RawClockDriver::divisor_to_divi_divf` (`gpio/src/clock/raw.rs`,
lines 96–111): truncate the integer part, multiply the fractional part by
1024, reject DIVI of 0 or either field above 12 bits. -/
def RawClockDriver.divisor_to_divi_divf (divisor : ℚ) :
    Except GpioError (Nat × Nat) :=
  let int_part := rustCastToU16 divisor
  let frac_part := rustCastToU16 (ratFract divisor * 1024)
  if 0xFFF < int_part ∨ int_part = 0 then .error .InvalidArgument
  else if 0xFFF < frac_part then .error .InvalidArgument
  else .ok (int_part, frac_part)

/-- `RawClockDriver::divi_divf_to_divisor` (`gpio/src/clock/raw.rs`,
lines 117–124): `DIVI + DIVF / 1024` after range checks. -/
def RawClockDriver.divi_divf_to_divisor (divi divf : Nat) :
    Except GpioError ℚ :=
  if divi = 0 ∨ 0xFFF < divi ∨ 0xFFF < divf then .error .InvalidArgument
  else .ok ((divi : ℚ) + (divf : ℚ) / 1024)

/-- Claim C5 counterexample: the round trip fails at DIVI = 1, DIVF = 1024
(both inside the claimed ranges): the divisor is exactly 2, which converts
back to (2, 0), not (1, 1024). -/
theorem divisor_round_trip_counterexample :
    RawClockDriver.divi_divf_to_divisor 1 1024 = .ok 2 ∧
    RawClockDriver.divisor_to_divi_divf 2 = .ok (2, 0) ∧
    ((2 : Nat), (0 : Nat)) ≠ ((1 : Nat), (1024 : Nat)) := by
  refine ⟨?_, ?_, by decide⟩
  · unfold RawClockDriver.divi_divf_to_divisor
    rw [if_neg (by omega)]
    norm_num
  · unfold RawClockDriver.divisor_to_divi_divf
    have ht : ratTrunc 2 = 2 := by
      unfold ratTrunc
      rw [if_neg (by norm_num)]
      norm_num
    have h1 : rustCastToU16 2 = 2 := by
      unfold rustCastToU16
      rw [if_neg (by norm_num), ht]
      rfl
    have h2 : rustCastToU16 (ratFract 2 * 1024) = 0 := by
      unfold ratFract
      rw [ht]
      norm_num [rustCastToU16, ratTrunc]
    rw [h1, h2]
    norm_num

/-- Claim C5 (amended): for every DIVI in [1, 4095] and every DIVF in
[0, 1023] (the fractional field a conversion can actually produce, since
`fract < 1` is multiplied by 1024), `divi_divf_to_divisor` succeeds and
`divisor_to_divi_divf` recovers exactly the same (DIVI, DIVF) pair.  For
DIVF ≥ 1024 the units carried by DIVF/1024 fold into the integer part and
the pair is not recovered. -/
theorem divisor_round_trip (divi divf : Nat)
    (h1 : 1 ≤ divi) (h2 : divi ≤ 4095) (h3 : divf ≤ 1023) :
    RawClockDriver.divi_divf_to_divisor divi divf =
      .ok ((divi : ℚ) + (divf : ℚ) / 1024) ∧
    RawClockDriver.divisor_to_divi_divf ((divi : ℚ) + (divf : ℚ) / 1024) =
      .ok (divi, divf) := by
  have hx0 : (0 : ℚ) ≤ (divf : ℚ) / 1024 := by positivity
  have hx1 : (divf : ℚ) / 1024 < 1 := by
    rw [div_lt_one (by norm_num)]
    exact_mod_cast by omega
  have hq0 : (0 : ℚ) ≤ (divi : ℚ) + (divf : ℚ) / 1024 := by positivity
  have hfloor : ⌊(divi : ℚ) + (divf : ℚ) / 1024⌋ = (divi : ℤ) := by
    have h0 : ⌊(divf : ℚ) / 1024⌋ = 0 := Int.floor_eq_zero_iff.mpr ⟨hx0, hx1⟩
    rw [Int.floor_nat_add, h0, add_zero]
  have htrunc : ratTrunc ((divi : ℚ) + (divf : ℚ) / 1024) = (divi : ℤ) := by
    unfold ratTrunc
    rw [if_neg (by push_neg; exact hq0), hfloor]
  constructor
  · unfold RawClockDriver.divi_divf_to_divisor
    rw [if_neg (by omega)]
  · unfold RawClockDriver.divisor_to_divi_divf
    have hint : rustCastToU16 ((divi : ℚ) + (divf : ℚ) / 1024) = divi := by
      unfold rustCastToU16
      rw [if_neg (by push_neg; exact hq0), htrunc]
      simp
      omega
    have hfract : ratFract ((divi : ℚ) + (divf : ℚ) / 1024) * 1024 = (divf : ℚ) := by
      unfold ratFract
      rw [htrunc]
      push_cast
      field_simp
      ring
    have hfrac : rustCastToU16 (ratFract ((divi : ℚ) + (divf : ℚ) / 1024) * 1024)
        = divf := by
      rw [hfract]
      unfold rustCastToU16 ratTrunc
      rw [if_neg (not_lt.mpr (Nat.cast_nonneg divf)),
        if_neg (not_lt.mpr (Nat.cast_nonneg divf))]
      rw [Int.floor_natCast]
      simp
      omega
    rw [hint, hfrac]
    rw [if_neg (by omega), if_neg (by omega)]

/-- Claim C5 witness: the round trip at DIVI = 1, DIVF = 1 (divisor
1 + 1/1024). -/
theorem divisor_round_trip_witness :
    1 ≤ 1 ∧ (1 : Nat) ≤ 4095 ∧ (1 : Nat) ≤ 1023 ∧
    (RawClockDriver.divi_divf_to_divisor 1 1 =
      .ok ((1 : ℚ) + (1 : ℚ) / 1024) ∧
    RawClockDriver.divisor_to_divi_divf ((1 : ℚ) + (1 : ℚ) / 1024) =
      .ok (1, 1)) :=
  ⟨by omega, by omega, by omega, by
    have h := divisor_round_trip 1 1 (by omega) (by omega) (by omega)
    simpa using h⟩

/-- `MashMode` (`gpio/src/clock/mod.rs`). -/
inductive MashMode where
  | None : MashMode
  | Mash1 : MashMode
  | Mash2 : MashMode
  | Mash3 : MashMode
deriving DecidableEq, Repr

/-- `MashMode::to_index` (`gpio/src/clock/mod.rs`). -/
def MashMode.to_index : MashMode → Nat
  | .None => 0
  | .Mash1 => 1
  | .Mash2 => 2
  | .Mash3 => 3

/-- `ClockSource` (`gpio/src/clock/mod.rs`). -/
inductive ClockSource where
  | Ground : ClockSource
  | Oscillator : ClockSource
  | TestDebug0 : ClockSource
  | TestDebug1 : ClockSource
  | PllA : ClockSource
  | PllC : ClockSource
  | PllD : ClockSource
  | HdmiAuxiliary : ClockSource
deriving DecidableEq, Repr

/-- `ClockSource::to_index` (`gpio/src/clock/mod.rs`). -/
def ClockSource.to_index : ClockSource → Nat
  | .Ground => 0
  | .Oscillator => 1
  | .TestDebug0 => 2
  | .TestDebug1 => 3
  | .PllA => 4
  | .PllC => 5
  | .PllD => 6
  | .HdmiAuxiliary => 7

/-- The word `RawClockDriver::set_enabled` writes to `CM_CTL`
(`gpio/src/clock/raw.rs`, lines 159–175), as a function of the register
value read back: OR in the password, then set or clear the `ENAB` bit. -/
def RawClockDriver.set_enabled_word (register_value : Nat) (enabled : Bool) : Nat :=
  let v := register_value ||| (0x5A <<< 24)
  if enabled then v ||| (0b1 <<< 4) else v &&& not32 (0b1 <<< 4)

/-- The word `RawClockDriver::set_mash_mode` writes to `CM_CTL`
(`gpio/src/clock/raw.rs`, lines 190–204): OR in the password, clear the
`MASH` bits, set the new mode. -/
def RawClockDriver.set_mash_mode_word (register_value : Nat) (mode : MashMode) : Nat :=
  let v := register_value ||| (0x5A <<< 24)
  (v &&& not32 (0b11 <<< 9)) ||| (mode.to_index <<< 9)

/-- The word `RawClockDriver::set_source` writes to `CM_CTL`
(`gpio/src/clock/raw.rs`, lines 219–233): OR in the password, clear the
`SRC` bits, set the new source. -/
def RawClockDriver.set_source_word (register_value : Nat) (source : ClockSource) : Nat :=
  let v := register_value ||| (0x5A <<< 24)
  (v &&& not32 0b1111) ||| source.to_index

/-- The word `RawClockDriver::set_divisor` writes to `CM_DIV`
(`gpio/src/clock/raw.rs`, lines 249–265): convert the divisor (failing on
an invalid one before any write), OR in the password, clear and set the
DIVI then the DIVF field. -/
def RawClockDriver.set_divisor_word (register_value : Nat) (divisor : ℚ) :
    Except GpioError Nat :=
  match RawClockDriver.divisor_to_divi_divf divisor with
  | .error e => .error e
  | .ok (divi, divf) =>
    let v := register_value ||| (0x5A <<< 24)
    let v := (v &&& not32 (0xFFF <<< 12)) ||| (divi <<< 12)
    .ok ((v &&& not32 0xFFF) ||| divf)

lemma lor_password_mask (x p : Nat) : (x ||| p) &&& p = p := by
  apply Nat.eq_of_testBit_eq
  intro b
  simp only [Nat.testBit_and, Nat.testBit_or]
  cases Nat.testBit p b <;> simp

lemma lor_preserves_mask (w y p : Nat) (hw : w &&& p = p) :
    (w ||| y) &&& p = p := by
  apply Nat.eq_of_testBit_eq
  intro b
  have h := congrArg (fun n => Nat.testBit n b) hw
  simp only [Nat.testBit_and, Nat.testBit_or] at h ⊢
  cases hw' : Nat.testBit w b <;> cases hp : Nat.testBit p b <;>
    rw [hw', hp] at h <;> simp_all

lemma land_not32_preserves_mask (w m p : Nat) (hw : w &&& p = p)
    (hm : m &&& p = 0) (hp : p < 2 ^ 32) :
    (w &&& not32 m) &&& p = p := by
  apply Nat.eq_of_testBit_eq
  intro b
  have h1 := congrArg (fun n => Nat.testBit n b) hw
  have h2 := congrArg (fun n => Nat.testBit n b) hm
  simp only [Nat.testBit_and, Nat.zero_testBit] at h1 h2
  cases hpb : Nat.testBit p b
  · simp [Nat.testBit_and, hpb]
  · have hb32 : b < 32 := by
      by_contra hge
      have hfalse : Nat.testBit p b = false :=
        Nat.testBit_lt_two_pow
          (lt_of_lt_of_le hp (Nat.pow_le_pow_right (by omega) (by omega)))
      rw [hpb] at hfalse
      exact Bool.noConfusion hfalse
    rw [hpb] at h1 h2
    simp only [Bool.and_true] at h1 h2
    have hx : Nat.testBit 0xFFFFFFFF b = true := by
      rw [show (0xFFFFFFFF : Nat) = 2 ^ 32 - 1 by norm_num,
        Nat.testBit_two_pow_sub_one]
      simp [hb32]
    simp [Nat.testBit_and, Nat.testBit_xor, not32, hx, h1, h2, hpb]

/-- Claim C7: every clock write operation — `set_enabled`, `set_mash_mode`,
`set_source`, `set_divisor` — writes a 32-bit word into whose top byte the
password constant 0x5A has been OR-ed; no write path to `CM_CTL` or
`CM_DIV` omits the password. -/
theorem clock_write_carries_password (register_value : Nat) (enabled : Bool)
    (mode : MashMode) (source : ClockSource) (divisor : ℚ) (w : Nat)
    (h : w = RawClockDriver.set_enabled_word register_value enabled ∨
         w = RawClockDriver.set_mash_mode_word register_value mode ∨
         w = RawClockDriver.set_source_word register_value source ∨
         RawClockDriver.set_divisor_word register_value divisor = .ok w) :
    w &&& (0x5A <<< 24) = 0x5A <<< 24 := by
  rcases h with h | h | h | h
  · subst h
    unfold RawClockDriver.set_enabled_word
    cases enabled
    · simpa using land_not32_preserves_mask _ (0b1 <<< 4) (0x5A <<< 24)
        (lor_password_mask register_value _) (by decide) (by decide)
    · simpa using lor_preserves_mask _ (0b1 <<< 4) (0x5A <<< 24)
        (lor_password_mask register_value _)
  · subst h
    unfold RawClockDriver.set_mash_mode_word
    exact lor_preserves_mask _ _ _
      (land_not32_preserves_mask _ (0b11 <<< 9) (0x5A <<< 24)
        (lor_password_mask register_value _) (by decide) (by decide))
  · subst h
    unfold RawClockDriver.set_source_word
    exact lor_preserves_mask _ _ _
      (land_not32_preserves_mask _ 0b1111 (0x5A <<< 24)
        (lor_password_mask register_value _) (by decide) (by decide))
  · unfold RawClockDriver.set_divisor_word at h
    cases hdd : RawClockDriver.divisor_to_divi_divf divisor with
    | error e => rw [hdd] at h; exact Except.noConfusion h
    | ok pair =>
      rw [hdd] at h
      obtain ⟨divi, divf⟩ := pair
      simp only [Except.ok.injEq] at h
      subst h
      exact lor_preserves_mask _ _ _
        (land_not32_preserves_mask _ 0xFFF (0x5A <<< 24)
          (lor_preserves_mask _ _ _
            (land_not32_preserves_mask _ (0xFFF <<< 12) (0x5A <<< 24)
              (lor_password_mask register_value _) (by decide) (by decide)))
          (by decide) (by decide))

/-- Claim C7 witness: the word `set_enabled(true)` writes over a register
that read back as 0x12345678 carries the 0x5A password in its top byte. -/
theorem clock_write_carries_password_witness :
    RawClockDriver.set_enabled_word 0x12345678 true &&& (0x5A <<< 24) =
      0x5A <<< 24 :=
  clock_write_carries_password 0x12345678 true .None .Ground 0 _ (Or.inl rfl)

/-- `RawPwmDriver::PIN_COUNT` (`gpio/src/pwm/raw.rs`): 2 channels per chip. -/
def RawPwmDriver.PIN_COUNT : Nat := 2

/-- `RawPwmDriver::init_channel` (`gpio/src/pwm/raw.rs`, lines 69–92), as a
function of the `PWM_CTL` value read back, returning the word written:
clear the 8-bit sub-field at `pin_index * 8`, then set PWEN (bit 0) and
MSEN (bit 7) inside it. -/
def RawPwmDriver.init_channel (register_value pin_index : Nat) :
    Except GpioError Nat :=
  if RawPwmDriver.PIN_COUNT ≤ pin_index then .error .InvalidArgument
  else
    let shift := pin_index * 8
    let mask := ((1 <<< 8) - 1) <<< shift
    let value := (1 : Nat) ||| (1 <<< 7)
    .ok ((register_value &&& not32 mask) ||| (value <<< shift))

/-- `RawPwmPin::enable` (`gpio/src/pwm/raw.rs`, lines 283–285): delegates
to `init_channel` on the pin's channel index. -/
def RawPwmPin.enable (register_value pin_index : Nat) :
    Except GpioError Nat :=
  RawPwmDriver.init_channel register_value pin_index

lemma one_testBit (k : Nat) : Nat.testBit 1 k = decide (k = 0) := by
  cases k with
  | zero => decide
  | succ n =>
    rw [Nat.testBit_lt_two_pow (lt_of_lt_of_le (by decide)
      (Nat.pow_le_pow_right (by omega) (Nat.succ_le_succ (Nat.zero_le n))))]
    symm
    rw [decide_eq_false_iff_not]
    omega

lemma pwm_value_testBit (k : Nat) :
    Nat.testBit ((1 : Nat) ||| (1 <<< 7)) k = decide (k = 0 ∨ k = 7) := by
  rcases Nat.lt_or_ge k 8 with hk | hk
  · interval_cases k <;> decide
  · have h1 : Nat.testBit ((1 : Nat) ||| (1 <<< 7)) k = false :=
      Nat.testBit_lt_two_pow (lt_of_lt_of_le (by decide)
        (Nat.pow_le_pow_right (by omega) hk))
    rw [h1]
    symm
    rw [decide_eq_false_iff_not]
    omega

/-- Claim C8: `PwmPin::enable()` on channel `i` performs a read-modify-write
of the PWM control register that changes only the 8-bit sub-field at bit
offset `8 * i` — setting enable bit 0 and MSEN bit 7 within it and clearing
the rest of that sub-field — while every bit outside the owning sub-field
(in particular the other channel's sub-field) is unchanged. -/
theorem pwm_enable_frame (v i w : Nat) (hv : v < 2 ^ 32)
    (h : RawPwmPin.enable v i = .ok w) :
    (∀ b, b < i * 8 ∨ i * 8 + 8 ≤ b → w.testBit b = v.testBit b) ∧
    (∀ b, i * 8 ≤ b → b < i * 8 + 8 →
      w.testBit b = decide (b = i * 8 ∨ b = i * 8 + 7)) := by
  unfold RawPwmPin.enable RawPwmDriver.init_channel at h
  by_cases hi : RawPwmDriver.PIN_COUNT ≤ i
  · rw [if_pos hi] at h
    exact Except.noConfusion h
  · rw [if_neg hi] at h
    simp only [Except.ok.injEq] at h
    subst h
    have hi2 : i < 2 := by
      simp only [RawPwmDriver.PIN_COUNT, not_le] at hi
      exact hi
    have hFF : (0xFFFFFFFF : Nat) = 2 ^ 32 - 1 := by decide
    have hml : ((1 <<< 8) - 1 : Nat) = 2 ^ 8 - 1 := by decide
    constructor
    · intro b hb
      rcases hb with hb | hb
      · have h1 : ¬ (i * 8 ≤ b) := by omega
        have h2 : b < 32 := by omega
        simp only [Nat.testBit_or, Nat.testBit_and, not32, hFF, hml,
          Nat.testBit_xor, Nat.testBit_shiftLeft,
          Nat.testBit_two_pow_sub_one, pwm_value_testBit]
        simp [h1, h2]
      · have h1 : i * 8 ≤ b := by omega
        have h3 : ¬ (b - i * 8 < 8) := by omega
        have h4 : ¬ (b - i * 8 = 0 ∨ b - i * 8 = 7) := by omega
        have h8 : b - i * 8 ≠ 0 := by omega
        have h9 : b - i * 8 - 7 ≠ 0 := by omega
        rcases Nat.lt_or_ge b 32 with h2 | h2
        · simp only [Nat.testBit_or, Nat.testBit_and, not32, hFF, hml,
            Nat.testBit_xor, Nat.testBit_shiftLeft,
            Nat.testBit_two_pow_sub_one, pwm_value_testBit, one_testBit]
          simp [h1, h2, h3, h4, h8, h9]
        · have h5 : Nat.testBit v b = false :=
            Nat.testBit_lt_two_pow
              (lt_of_lt_of_le hv (Nat.pow_le_pow_right (by omega) h2))
          have h6 : ¬ (b < 32) := by omega
          simp only [Nat.testBit_or, Nat.testBit_and, not32, hFF, hml,
            Nat.testBit_xor, Nat.testBit_shiftLeft,
            Nat.testBit_two_pow_sub_one, pwm_value_testBit, one_testBit]
          simp [h1, h3, h4, h5, h6, h8, h9]
    · intro b hb1 hb2
      have h2 : b < 32 := by omega
      have h3 : b - i * 8 < 8 := by omega
      simp only [Nat.testBit_or, Nat.testBit_and, not32, hFF, hml,
        Nat.testBit_xor, Nat.testBit_shiftLeft,
        Nat.testBit_two_pow_sub_one, pwm_value_testBit, one_testBit]
      by_cases hA : b = i * 8
      · have h8 : b - i * 8 = 0 := by omega
        simp [hb1, h2, h3, hA, h8]
      · by_cases hB : b = i * 8 + 7
        · have h8 : b - i * 8 = 7 := by omega
          have h9 : b - i * 8 - 7 = 0 := by omega
          simp [hb1, h2, h3, hA, hB, h8, h9]
        · have h8 : b - i * 8 ≠ 0 := by omega
          have h9 : ¬ (7 ≤ b - i * 8) := by omega
          simp [hb1, h2, h3, hA, hB, h8, h9]

/-- Claim C8 witness: enabling channel 1 over a control register that read
back as 0xFF (channel 0 fully set) writes 0x81FF; channel 0's bits are
unchanged and inside channel 1's sub-field exactly bits 8 (PWEN) and 15
(MSEN) are set. -/
theorem pwm_enable_frame_witness :
    Nat.testBit 0x81FF 3 = Nat.testBit 0xFF 3 ∧
    Nat.testBit 0x81FF 8 = decide ((8 : Nat) = 1 * 8 ∨ (8 : Nat) = 1 * 8 + 7) ∧
    Nat.testBit 0x81FF 10 = decide ((10 : Nat) = 1 * 8 ∨ (10 : Nat) = 1 * 8 + 7) ∧
    Nat.testBit 0x81FF 15 = decide ((15 : Nat) = 1 * 8 ∨ (15 : Nat) = 1 * 8 + 7) :=
  ⟨(pwm_enable_frame 0xFF 1 0x81FF (by decide) (by rfl)).1 3 (Or.inl (by omega)),
    (pwm_enable_frame 0xFF 1 0x81FF (by decide) (by rfl)).2 8 (by omega) (by omega),
    (pwm_enable_frame 0xFF 1 0x81FF (by decide) (by rfl)).2 10 (by omega) (by omega),
    (pwm_enable_frame 0xFF 1 0x81FF (by decide) (by rfl)).2 15 (by omega) (by omega)⟩

/-- The outcome of calling a Rust function that may diverge by panicking
instead of returning: `todo!()` panics, it does not produce a value. -/
inductive RustOutcome (α : Type) where
  | returns : α → RustOutcome α
  | panics : String → RustOutcome α
deriving DecidableEq, Repr

/-- `PwmPolarity` (`gpio/src/pwm/mod.rs`). -/
inductive PwmPolarity where
  | Normal : PwmPolarity
  | Inversed : PwmPolarity
deriving DecidableEq, Repr

/-- `RawPwmPin::set_polarity` (`gpio/src/pwm/raw.rs`, lines 275–277): the
body is exactly `todo!()`, which panics with "not yet implemented". -/
def RawPwmPin.set_polarity (_polarity : PwmPolarity) :
    RustOutcome (Except GpioError Unit) :=
  .panics "not yet implemented"

/-- Whether an outcome is a normal return of an error result. -/
def returnsError : RustOutcome (Except GpioError Unit) → Bool
  | .returns (.error _) => true
  | _ => false

/-- Claim C9 counterexample: `set_polarity(Normal)` does not return an
error result — it does not return at all: the `todo!()` body panics. -/
theorem set_polarity_counterexample :
    returnsError (RawPwmPin.set_polarity PwmPolarity.Normal) = false ∧
    RawPwmPin.set_polarity PwmPolarity.Normal =
      RustOutcome.panics "not yet implemented" :=
  ⟨rfl, rfl⟩

/-- Claim C9 (amended): for every polarity value, `set_polarity` on a
`RawPwmPin` never reports success — but rather than returning an error
result it panics (the body is an unimplemented `todo!()`). -/
theorem set_polarity_never_succeeds (polarity : PwmPolarity) :
    RawPwmPin.set_polarity polarity =
      RustOutcome.panics "not yet implemented" :=
  rfl
